import Mathlib

/-!
Verification of the PlanMyTrip conversational trip-planning pipeline.

The client code (TripPlanner component, mobile TripPlannerScreen,
SubscriptionContext) is embedded shallowly: React state updates become
explicit state-record transformations, `fetch`/`await` results become an
`Except`/response-record parameter, JS truthiness is made explicit, and
JS numbers are modelled as rationals (reals for the trigonometric
bearing computation).  The backend resolver and generator, whose source
is not part of the checked tree, are modelled from the specification
where a claim needs them (marked `Modelled from the spec:`).
-/

/-- The `Place` interface of the TripPlanner component: name plus optional
neighborhood, category, address, coordinates and notes.  JS `number` fields
are modelled as rationals, optional fields as `Option`. -/
structure Place where
  name : String
  neighborhood : Option String := none
  category : Option String := none
  address : Option String := none
  latitude : Option ℚ := none
  longitude : Option ℚ := none
  notes : Option String := none
  deriving DecidableEq, Repr

/-- A JSON scalar value, used where the client inspects `typeof` or JS
truthiness of a field of the parsed response. -/
inductive JValue where
  | num (q : ℚ)
  | str (s : String)
  | bool (b : Bool)
  | null
  deriving DecidableEq, Repr

/-- JS truthiness of a JSON scalar: `0`, `""`, `false` and `null` are falsy. -/
def jsTruthy : JValue → Bool
  | .num q => q != 0
  | .str s => s != ""
  | .bool b => b
  | .null => false

/-- JS truthiness of an optional string field (`undefined`/`null` and `""`
are falsy). -/
def jsTruthyStr : Option String → Bool
  | none => false
  | some s => s != ""

/-- The JS idiom `o || d` on an optional string: the default replaces a
missing or empty (falsy) string. -/
def jsOrStr (o : Option String) (d : String) : String :=
  match o with
  | none => d
  | some s => if s = "" then d else s

/-- JS `String.prototype.trim`: strip whitespace from both ends. -/
def jsTrim (s : String) : String :=
  ⟨(((s.data.dropWhile Char.isWhitespace).reverse.dropWhile
      Char.isWhitespace).reverse)⟩

/-! ### C5: marker rendering never drops places (TripPlanner marker effect) -/

/-- A place is mappable when both coordinates came back from geocoding:
the marker effect tests `p.latitude == null || p.longitude == null` and
skips the place when the test holds. -/
def hasCoords (p : Place) : Bool :=
  p.latitude.isSome && p.longitude.isSome

/-- The view state the marker-render effect works on: the `places` React
state it reads and the markers (one per rendered place) it rebuilds. -/
structure MapViewState where
  places : List Place
  markers : List Place
  deriving Repr

/-- The marker-render effect of TripPlanner: it removes the existing
markers and walks `places`, skipping (`return`, i.e. `continue`) every
place with a missing coordinate and creating a marker for each of the
rest; it never writes the `places` state. -/
def renderMarkers (st : MapViewState) : MapViewState :=
  { st with markers := st.places.filter hasCoords }

/-- The itinerary list view of TripPlanner: `places.map` renders one card
per place, keyed by its name, with no filtering. -/
def listViewEntries (places : List Place) : List String :=
  places.map Place.name

/-! ### C6: day-count normalization in the mobile `handleShowPlan` -/

/-- The day-count normalization in `handleShowPlan`:
`typeof extracted.days === 'number' && extracted.days > 0 ? extracted.days : 1`. -/
def handleShowPlanDays (days : Option JValue) : ℚ :=
  match days with
  | some (.num d) => if 0 < d then d else 1
  | _ => 1

/-! ### C10: `checkUsage` in SubscriptionContext -/

/-- The parsed body of a `/subscription/usage` response, as `checkUsage`
inspects it. -/
structure UsageResponse where
  success : JValue
  allowed : JValue
  message : Option String := none
  deriving DecidableEq, Repr

/-- `checkUsage` of SubscriptionContext: the whole body is a `try` whose
`catch` returns `false`; on a parsed response it returns `true` exactly
when `data.success && data.allowed` is truthy, else `false`.  The fetch
and JSON parse are modelled by the `Except` argument (`.error` = any
thrown network or parse error). -/
def checkUsage (outcome : Except Unit UsageResponse) : Bool :=
  match outcome with
  | .error _ => false
  | .ok data => jsTruthy data.success && jsTruthy data.allowed

/-! ### Theorems -/

/-- Claim C5: the marker pass creates a marker exactly for the places with
both coordinates present, leaves the place list untouched, and the list
view still renders an entry for every place (coordinate misses are
retained, merely non-mappable). -/
theorem renderMarkers_keeps_all_places (st : MapViewState) :
    (renderMarkers st).places = st.places ∧
    (renderMarkers st).markers = st.places.filter hasCoords ∧
    (∀ p, p ∈ (renderMarkers st).markers ↔ p ∈ st.places ∧ hasCoords p = true) ∧
    listViewEntries (renderMarkers st).places = st.places.map Place.name := by
  refine ⟨rfl, rfl, ?_, rfl⟩
  intro p
  simp [renderMarkers, List.mem_filter]

/-- A concrete geocoded place used in witnesses. -/
def louvrePlace : Place :=
  { name := "Louvre", latitude := some 48, longitude := some 2 }

/-- A concrete place whose geocoding missed, used in witnesses. -/
def hiddenCafePlace : Place :=
  { name := "Secret Hidden Cafe", notes := some "location not found" }

/-- Claim C5 witness: a concrete two-place list, one geocoded and one not:
exactly the geocoded one gets a marker, both stay listed. -/
theorem renderMarkers_keeps_all_places_witness :
    (renderMarkers ⟨[louvrePlace, hiddenCafePlace], []⟩).places =
      [louvrePlace, hiddenCafePlace] ∧
    (hiddenCafePlace ∈
        (renderMarkers ⟨[louvrePlace, hiddenCafePlace], []⟩).markers ↔
      hiddenCafePlace ∈ [louvrePlace, hiddenCafePlace] ∧
        hasCoords hiddenCafePlace = true) :=
  ⟨(renderMarkers_keeps_all_places _).1,
   (renderMarkers_keeps_all_places _).2.2.1 _⟩

/-- Claim C6: a missing, non-numeric or non-positive extracted day count is
replaced by exactly 1 before the itinerary request; a positive numeric day
count passes through unchanged. -/
theorem handleShowPlanDays_spec :
    (∀ d : ℚ, 0 < d → handleShowPlanDays (some (.num d)) = d) ∧
    (∀ d : ℚ, d ≤ 0 → handleShowPlanDays (some (.num d)) = 1) ∧
    handleShowPlanDays none = 1 ∧
    (∀ s, handleShowPlanDays (some (.str s)) = 1) ∧
    (∀ b, handleShowPlanDays (some (.bool b)) = 1) ∧
    handleShowPlanDays (some .null) = 1 := by
  refine ⟨?_, ?_, rfl, fun _ => rfl, fun _ => rfl, rfl⟩
  · intro d hd
    simp [handleShowPlanDays, hd]
  · intro d hd
    simp [handleShowPlanDays, not_lt.mpr hd]

/-- Claim C6 witness: a positive day count (2) is passed through, a
non-positive one (0) and a missing one default to 1. -/
theorem handleShowPlanDays_spec_witness :
    handleShowPlanDays (some (.num 2)) = 2 ∧
    handleShowPlanDays (some (.num 0)) = 1 ∧
    handleShowPlanDays none = 1 :=
  ⟨handleShowPlanDays_spec.1 2 (by norm_num),
   handleShowPlanDays_spec.2.1 0 (by norm_num),
   handleShowPlanDays_spec.2.2.1⟩

/-- Claim C10: `checkUsage` is a total function of the request outcome; it
returns `true` exactly when the parsed response has both `success` and
`allowed` truthy, and `false` in every other case, including any thrown
network or parse error. -/
theorem checkUsage_spec (outcome : Except Unit UsageResponse) :
    (checkUsage outcome = true ↔
      ∃ data, outcome = Except.ok data ∧
        jsTruthy data.success = true ∧ jsTruthy data.allowed = true) ∧
    (∀ e, outcome = Except.error e → checkUsage outcome = false) := by
  refine ⟨⟨?_, ?_⟩, ?_⟩
  · intro h
    match outcome with
    | .error e => simp [checkUsage] at h
    | .ok data =>
        rw [checkUsage, Bool.and_eq_true] at h
        exact ⟨data, rfl, h.1, h.2⟩
  · rintro ⟨data, rfl, hs, ha⟩
    simp [checkUsage, hs, ha]
  · rintro e rfl
    simp [checkUsage]

/-- Claim C10 witness: a fully-allowed response yields `true`, a thrown
error yields `false`. -/
theorem checkUsage_spec_witness :
    checkUsage (Except.ok ⟨.bool true, .bool true, none⟩) = true ∧
    checkUsage (Except.error ()) = false :=
  ⟨(checkUsage_spec (Except.ok ⟨.bool true, .bool true, none⟩)).1.mpr
      ⟨⟨.bool true, .bool true, none⟩, rfl, rfl, rfl⟩,
   (checkUsage_spec (Except.error ())).2 () rfl⟩

/-! ### C2, C3: `sendChatMessage` of TripPlanner -/

/-- One entry of the TripPlanner chat transcript (timestamps are real
time and are not modelled). -/
inductive ChatMsg where
  | user (message : String)
  | bot (message : String)
  deriving DecidableEq, Repr

/-- The parsed body of a `/modify` response, as `sendChatMessage`
inspects it: a `type` discriminator, an optional place list and an
optional response text. -/
structure ModifyResponse where
  type : Option String := none
  places : Option (List Place) := none
  response : Option String := none
  deriving DecidableEq, Repr

/-- The place-list update of `sendChatMessage`: `type === 'modification'`
always replaces the list with `data.places || []`; `type === 'answer'`
deliberately leaves it alone; any other shape updates only when
`data.places && Array.isArray(data.places) && data.places.length > 0`. -/
def applyModifyResponse (data : ModifyResponse) (places : List Place) : List Place :=
  if data.type = some "modification" then
    data.places.getD []
  else if data.type = some "answer" then
    places
  else
    match data.places with
    | some ps => if 0 < ps.length then ps else places
    | none => places

/-- The extracted trip parameters held in React state, as the chat path
reads them (`destination`, `destination_type`, `city`, `interests`,
`days`). -/
structure Extracted where
  destination : Option String := none
  destination_type : Option String := none
  city : Option String := none
  interests : Option String := none
  days : Option JValue := none
  deriving DecidableEq, Repr

/-- The slice of TripPlanner React state that `sendChatMessage` reads and
writes: the transcript, the place list, the chat input box and the status
line. -/
structure ChatState where
  chatMessages : List ChatMsg
  places : List Place
  chatInput : String
  status : String
  deriving DecidableEq, Repr

/-- The static bot reply `sendChatMessage` appends from its `catch` arm. -/
def chatErrorText : String :=
  "Sorry, I encountered an error while processing your request. Please try again."

/-- The fallback bot reply used when `data.response` is falsy. -/
def chatFallbackText : String := "I\x27ve processed your request."

/-- `sendChatMessage` of TripPlanner as a state transformation.  The guard
`!chatInput.trim() || !extracted || isAutoSubmitting` returns with nothing
changed; otherwise the user message is appended and the input cleared, an
empty `API_BASE` returns early, and the awaited `/modify` call (the
`Except` argument) either appends one bot message built from
`data.response || fallback` after the place-list update, or, when the
request throws, appends the static apologetic bot message. -/
def sendChatMessage (extracted : Option Extracted) (isAutoSubmitting : Bool)
    (apiBase : String) (outcome : Except Unit ModifyResponse)
    (st : ChatState) : ChatState :=
  if jsTrim st.chatInput = "" ∨ extracted.isNone ∨ isAutoSubmitting then st
  else
    let st1 : ChatState :=
      { st with
        chatMessages := st.chatMessages ++ [ChatMsg.user st.chatInput],
        chatInput := "",
        status := "Processing..." }
    if apiBase = "" then
      { st1 with status := "Set VITE_API_BASE in frontend/.env" }
    else
      match outcome with
      | .ok data =>
          { st1 with
            places := applyModifyResponse data st1.places,
            chatMessages :=
              st1.chatMessages ++ [ChatMsg.bot (jsOrStr data.response chatFallbackText)],
            status := "" }
      | .error _ =>
          { st1 with
            chatMessages := st1.chatMessages ++ [ChatMsg.bot chatErrorText],
            status := "Error processing request" }

/-! ### C4: the subscription-limit arm of `doItinerary` -/

/-- The parsed body of an `/itinerary` response, as `doItinerary`
inspects it. -/
structure ItineraryResponse where
  error : Option String := none
  type : Option String := none
  message : Option String := none
  places : Option (List Place) := none
  deriving DecidableEq, Repr

/-- The slice of TripPlanner React state that `doItinerary` touches after
the `/itinerary` response is parsed. -/
structure TripState where
  places : List Place
  extracted : Option Extracted
  subscriptionError : Option String
  status : String
  hasGeneratedItinerary : Bool
  deriving DecidableEq, Repr

/-- The response handling of `doItinerary`: when
`data.error && data.type === 'subscription_limit'` holds it surfaces
`data.message` as the subscription error, clears the status and returns;
otherwise it installs `data.places || []` and marks the itinerary
generated. -/
def processItineraryResponse (data : ItineraryResponse) (st : TripState) : TripState :=
  if jsTruthyStr data.error = true ∧ data.type = some "subscription_limit" then
    { st with subscriptionError := data.message, status := "" }
  else
    { st with
      places := data.places.getD [],
      hasGeneratedItinerary := true,
      status := "" }

/-- Claim C2: a `/modify` response of type `"answer"` never changes the
place list (the question path is read-only), while a response of type
`"modification"` replaces the place list with exactly the returned
places, an empty list included. -/
theorem sendChatMessage_places_spec (e : Extracted) (isAutoSubmitting : Bool)
    (apiBase : String) (data : ModifyResponse) (st : ChatState)
    (hin : jsTrim st.chatInput ≠ "") (hauto : isAutoSubmitting = false)
    (hbase : apiBase ≠ "") :
    (data.type = some "answer" →
      (sendChatMessage (some e) isAutoSubmitting apiBase (Except.ok data) st).places =
        st.places) ∧
    (data.type = some "modification" →
      (sendChatMessage (some e) isAutoSubmitting apiBase (Except.ok data) st).places =
        data.places.getD []) := by
  constructor
  · intro hty
    simp [sendChatMessage, hin, hauto, hbase, applyModifyResponse, hty]
  · intro hty
    simp [sendChatMessage, hin, hauto, hbase, applyModifyResponse, hty]

/-- Claim C2 witness: an `"answer"` response leaves a concrete one-place
list untouched; a `"modification"` response carrying an empty list
replaces it with the empty list. -/
theorem sendChatMessage_places_spec_witness :
    ((sendChatMessage (some {}) false "http://localhost:8000"
        (Except.ok { type := some "answer", response := some "It is nearby." })
        ⟨[], [louvrePlace], "what is nearby?", ""⟩).places = [louvrePlace]) ∧
    ((sendChatMessage (some {}) false "http://localhost:8000"
        (Except.ok { type := some "modification", places := some [] })
        ⟨[], [louvrePlace], "remove the Louvre", ""⟩).places =
      (some ([] : List Place)).getD []) :=
  ⟨(sendChatMessage_places_spec {} false "http://localhost:8000"
      { type := some "answer", response := some "It is nearby." }
      ⟨[], [louvrePlace], "what is nearby?", ""⟩
      (by decide) rfl (by decide)).1 rfl,
   (sendChatMessage_places_spec {} false "http://localhost:8000"
      { type := some "modification", places := some [] }
      ⟨[], [louvrePlace], "remove the Louvre", ""⟩
      (by decide) rfl (by decide)).2 rfl⟩

/-- Claim C3: once past the guard (non-blank input, extracted parameters
present, no auto-submit in flight) and with an API base configured,
`sendChatMessage` appends the user turn and then exactly one bot message:
the response text (or the static fallback when it is falsy) on success,
and the static apologetic text when the request throws. -/
theorem sendChatMessage_one_bot_reply (e : Extracted) (isAutoSubmitting : Bool)
    (apiBase : String) (outcome : Except Unit ModifyResponse) (st : ChatState)
    (hin : jsTrim st.chatInput ≠ "") (hauto : isAutoSubmitting = false)
    (hbase : apiBase ≠ "") :
    (sendChatMessage (some e) isAutoSubmitting apiBase outcome st).chatMessages =
      st.chatMessages ++ [ChatMsg.user st.chatInput] ++
        [ChatMsg.bot (match outcome with
          | .ok data => jsOrStr data.response chatFallbackText
          | .error _ => chatErrorText)] := by
  match outcome with
  | .ok data => simp [sendChatMessage, hin, hauto, hbase]
  | .error u => simp [sendChatMessage, hin, hauto, hbase]

/-- Claim C3 witness: at a concrete state, a successful response with text
appends exactly that one bot message after the user turn. -/
theorem sendChatMessage_one_bot_reply_witness :
    (sendChatMessage (some {}) false "http://localhost:8000"
        (Except.ok { type := some "answer", response := some "Plenty." })
        ⟨[], [], "what is nearby?", ""⟩).chatMessages =
      [] ++ [ChatMsg.user "what is nearby?"] ++
        [ChatMsg.bot (jsOrStr (some "Plenty.") chatFallbackText)] :=
  sendChatMessage_one_bot_reply {} false "http://localhost:8000"
    (Except.ok { type := some "answer", response := some "Plenty." })
    ⟨[], [], "what is nearby?", ""⟩ (by decide) rfl (by decide)

/-- Claim C4: on a subscription-limit error (`data.error` truthy and
`data.type === 'subscription_limit'`), `doItinerary` surfaces the
response message as the subscription error and returns with the place
list, the extracted parameters and the generated flag untouched. -/
theorem processItineraryResponse_subscription_limit (data : ItineraryResponse)
    (st : TripState) (herr : jsTruthyStr data.error = true)
    (hty : data.type = some "subscription_limit") :
    (processItineraryResponse data st).places = st.places ∧
    (processItineraryResponse data st).extracted = st.extracted ∧
    (processItineraryResponse data st).hasGeneratedItinerary = st.hasGeneratedItinerary ∧
    (processItineraryResponse data st).subscriptionError = data.message ∧
    (processItineraryResponse data st).status = "" := by
  simp [processItineraryResponse, herr, hty]

/-- Claim C4 witness: a concrete subscription-limit response leaves a
one-place list and the extracted parameters in place and surfaces the
message. -/
theorem processItineraryResponse_subscription_limit_witness :
    (processItineraryResponse
        { error := some "limit", type := some "subscription_limit",
          message := some "Monthly trip limit reached" }
        ⟨[louvrePlace], some {}, none, "Generating itinerary...", true⟩).places =
      [louvrePlace] ∧
    (processItineraryResponse
        { error := some "limit", type := some "subscription_limit",
          message := some "Monthly trip limit reached" }
        ⟨[louvrePlace], some {}, none, "Generating itinerary...", true⟩).extracted =
      some {} ∧
    (processItineraryResponse
        { error := some "limit", type := some "subscription_limit",
          message := some "Monthly trip limit reached" }
        ⟨[louvrePlace], some {}, none, "Generating itinerary...", true⟩).subscriptionError =
      some "Monthly trip limit reached" := by
  have h := processItineraryResponse_subscription_limit
    { error := some "limit", type := some "subscription_limit",
      message := some "Monthly trip limit reached" }
    ⟨[louvrePlace], some {}, none, "Generating itinerary...", true⟩
    (by decide) rfl
  exact ⟨h.1, h.2.1, h.2.2.2.1⟩

/-! ### C9: `interpolateRoute` of TripPlanner -/

/-- One segment of `interpolateRoute`: for `j = 0 .. 20`
(`pointsPerSegment = 20`, loop bound `j <= pointsPerSegment`) it pushes
`[lng, lat]` linearly interpolated between the segment endpoints at
`ratio = j / 20`.  Coordinates are `(lng, lat)` pairs, as in the source
arrays. -/
def interpSegment (s e : ℚ × ℚ) : List (ℚ × ℚ) :=
  (List.range 21).map (fun (j : ℕ) =>
    let t : ℚ := (j : ℚ) / 20
    (s.1 + (e.1 - s.1) * t, s.2 + (e.2 - s.2) * t))

/-- `interpolateRoute` of TripPlanner: the outer loop runs
`i = 0 .. coordinates.length - 2` over consecutive coordinate pairs and
concatenates the per-segment interpolations. -/
def interpolateRoute : List (ℚ × ℚ) → List (ℚ × ℚ)
  | a :: b :: rest => interpSegment a b ++ interpolateRoute (b :: rest)
  | _ => []

theorem interpSegment_length (s e : ℚ × ℚ) : (interpSegment s e).length = 21 := by
  rw [interpSegment, List.length_map, List.length_range]

theorem interpolateRoute_length :
    ∀ c : List (ℚ × ℚ), (interpolateRoute c).length = 21 * (c.length - 1)
  | [] => rfl
  | [_] => rfl
  | a :: b :: rest => by
      have ih := interpolateRoute_length (b :: rest)
      simp only [interpolateRoute, List.length_append, interpSegment_length, ih,
        List.length_cons]
      omega

theorem interpolateRoute_mem :
    ∀ c : List (ℚ × ℚ), ∀ p ∈ interpolateRoute c,
      ∃ i s e, c.get? i = some s ∧ c.get? (i + 1) = some e ∧
        ∃ t : ℚ, 0 ≤ t ∧ t ≤ 1 ∧
          p = (s.1 + (e.1 - s.1) * t, s.2 + (e.2 - s.2) * t)
  | a :: b :: rest => by
      intro p hp
      rw [interpolateRoute, List.mem_append] at hp
      rcases hp with hp | hp
      · rw [interpSegment, List.mem_map] at hp
        obtain ⟨j, hj, rfl⟩ := hp
        rw [List.mem_range] at hj
        refine ⟨0, a, b, rfl, rfl, (j : ℚ) / 20, by positivity, ?_, rfl⟩
        rw [div_le_one (by norm_num)]
        exact_mod_cast Nat.lt_succ_iff.mp hj
      · obtain ⟨i, s, e, hs, he, ht⟩ := interpolateRoute_mem (b :: rest) p hp
        exact ⟨i + 1, s, e, hs, he, ht⟩
  | [] => by intro p hp; simp [interpolateRoute] at hp
  | [_] => by intro p hp; simp [interpolateRoute] at hp

theorem interpolateRoute_segment_start :
    ∀ (c : List (ℚ × ℚ)) (i : ℕ), i + 1 < c.length →
      (interpolateRoute c).get? (21 * i) = c.get? i
  | [], i => by intro h; simp at h
  | [_], i => by intro h; simp at h
  | a :: b :: rest, 0 => by
      intro _
      rw [interpolateRoute, Nat.mul_zero,
        List.get?_append (by rw [interpSegment_length]; omega)]
      simp [interpSegment]
  | a :: b :: rest, Nat.succ k => by
      intro h
      rw [interpolateRoute,
        List.get?_append_right (by rw [interpSegment_length]; omega)]
      have hk : k + 1 < (b :: rest).length := by
        simp only [List.length_cons] at h ⊢
        omega
      have ih := interpolateRoute_segment_start (b :: rest) k hk
      rw [interpSegment_length]
      have harith : 21 * (k + 1) - 21 = 21 * k := by omega
      rw [harith, ih]
      rfl

/-- Claim C9: for `n ≥ 2` input coordinates, `interpolateRoute` returns
exactly `21 * (n - 1)` points; every returned point lies on the straight
segment between a pair of consecutive input coordinates, and the first
point emitted for segment `i` (at offset `21 * i`) is exactly that
segment's start coordinate. -/
theorem interpolateRoute_spec (c : List (ℚ × ℚ)) (h : 2 ≤ c.length) :
    (interpolateRoute c).length = 21 * (c.length - 1) ∧
    (∀ p ∈ interpolateRoute c,
      ∃ i s e, c.get? i = some s ∧ c.get? (i + 1) = some e ∧
        ∃ t : ℚ, 0 ≤ t ∧ t ≤ 1 ∧
          p = (s.1 + (e.1 - s.1) * t, s.2 + (e.2 - s.2) * t)) ∧
    (∀ i, i + 1 < c.length → (interpolateRoute c).get? (21 * i) = c.get? i) :=
  ⟨interpolateRoute_length c, interpolateRoute_mem c,
   fun i hi => interpolateRoute_segment_start c i hi⟩

/-- Claim C9 witness: on the concrete two-point route `[(0,0), (1,1)]` the
result has `21 = 21 * (2 - 1)` points and point `21 * 0` is the start
coordinate `(0, 0)`. -/
theorem interpolateRoute_spec_witness :
    (interpolateRoute [((0 : ℚ), (0 : ℚ)), (1, 1)]).length = 21 * (2 - 1) ∧
    (interpolateRoute [((0 : ℚ), (0 : ℚ)), (1, 1)]).get? (21 * 0) = some (0, 0) :=
  ⟨(interpolateRoute_spec [((0 : ℚ), (0 : ℚ)), (1, 1)] (by norm_num)).1,
   ((interpolateRoute_spec [((0 : ℚ), (0 : ℚ)), (1, 1)] (by norm_num)).2.2 0
      (by norm_num)).trans rfl⟩

/-! ### C8: `calculateBearing` of TripPlanner -/

/-- JS `Math.atan2(y, x)`: principal value in `[-pi, pi]`, modelled over
the reals branch by branch (signed zeros collapse to `0`). -/
noncomputable def jsAtan2 (y x : ℝ) : ℝ :=
  if 0 < x then Real.arctan (y / x)
  else if x < 0 then
    (if 0 ≤ y then Real.arctan (y / x) + Real.pi
     else Real.arctan (y / x) - Real.pi)
  else
    (if 0 < y then Real.pi / 2
     else if y < 0 then -(Real.pi / 2)
     else 0)

/-- JS number-to-integer truncation toward zero, as used by the `%`
operator. -/
noncomputable def jsTrunc (q : ℝ) : ℤ :=
  if 0 ≤ q then ⌊q⌋ else ⌈q⌉

/-- JS `a % b`: the remainder of truncating division. -/
noncomputable def jsMod (a b : ℝ) : ℝ :=
  a - b * (jsTrunc (a / b) : ℝ)

/-- `calculateBearing` of TripPlanner: great-circle forward azimuth from
`start` to `e` (both `(lng, lat)` in degrees), folded into `[0, 360)` by
`(bearing + 360) % 360`. -/
noncomputable def calculateBearing (start e : ℝ × ℝ) : ℝ :=
  let startLat := start.2 * Real.pi / 180
  let startLon := start.1 * Real.pi / 180
  let endLat := e.2 * Real.pi / 180
  let endLon := e.1 * Real.pi / 180
  let dLon := endLon - startLon
  let y := Real.sin dLon * Real.cos endLat
  let x := Real.cos startLat * Real.sin endLat -
    Real.sin startLat * Real.cos endLat * Real.cos dLon
  let bearing := jsAtan2 y x * 180 / Real.pi
  jsMod (bearing + 360) 360

theorem jsAtan2_le_pi (y x : ℝ) : jsAtan2 y x ≤ Real.pi := by
  have hπ := Real.pi_pos
  rw [jsAtan2]
  split
  · have := Real.arctan_lt_pi_div_two (y / x)
    linarith
  · split
    · split
      · have hle : y / x ≤ 0 := by
          rename_i hx0 hx hy
          exact div_nonpos_iff.mpr (Or.inl ⟨hy, hx.le⟩)
        have : Real.arctan (y / x) ≤ Real.arctan 0 :=
          Real.arctan_strictMono.monotone hle
        rw [Real.arctan_zero] at this
        linarith
      · have := Real.arctan_lt_pi_div_two (y / x)
        linarith
    · split
      · linarith
      · split
        · linarith
        · linarith

theorem neg_pi_le_jsAtan2 (y x : ℝ) : -Real.pi ≤ jsAtan2 y x := by
  have hπ := Real.pi_pos
  rw [jsAtan2]
  split
  · have := Real.neg_pi_div_two_lt_arctan (y / x)
    linarith
  · split
    · split
      · have := Real.neg_pi_div_two_lt_arctan (y / x)
        linarith
      · have hle : 0 ≤ y / x := by
          rename_i hx0 hx hy
          exact div_nonneg_of_nonpos (by linarith) hx.le
        have : Real.arctan 0 ≤ Real.arctan (y / x) :=
          Real.arctan_strictMono.monotone hle
        rw [Real.arctan_zero] at this
        linarith
    · split
      · linarith
      · split
        · linarith
        · linarith

theorem jsMod_mem_Ico (a b : ℝ) (hb : 0 < b) (ha : 0 ≤ a) :
    jsMod a b ∈ Set.Ico (0 : ℝ) b := by
  have hq : 0 ≤ a / b := div_nonneg ha hb.le
  have key : jsMod a b = b * Int.fract (a / b) := by
    rw [jsMod, jsTrunc, if_pos hq,
      show Int.fract (a / b) = a / b - ⌊a / b⌋ from rfl]
    field_simp
  rw [key]
  constructor
  · exact mul_nonneg hb.le (Int.fract_nonneg _)
  · calc b * Int.fract (a / b) < b * 1 :=
          (mul_lt_mul_left hb).mpr (Int.fract_lt_one _)
    _ = b := mul_one b

/-- Claim C8: for every pair of coordinate points, `calculateBearing`
returns a value in the half-open interval `[0, 360)` (over the reals
every value is finite; NaN propagation from non-finite inputs is outside
the model). -/
theorem calculateBearing_range (start e : ℝ × ℝ) :
    calculateBearing start e ∈ Set.Ico (0 : ℝ) 360 := by
  have hπ := Real.pi_pos
  rw [calculateBearing]
  apply jsMod_mem_Ico _ _ (by norm_num)
  have hlow := neg_pi_le_jsAtan2
    (Real.sin (e.1 * Real.pi / 180 - start.1 * Real.pi / 180) *
      Real.cos (e.2 * Real.pi / 180))
    (Real.cos (start.2 * Real.pi / 180) * Real.sin (e.2 * Real.pi / 180) -
      Real.sin (start.2 * Real.pi / 180) * Real.cos (e.2 * Real.pi / 180) *
        Real.cos (e.1 * Real.pi / 180 - start.1 * Real.pi / 180))
  have hdiv : (-180 : ℝ) ≤ jsAtan2
      (Real.sin (e.1 * Real.pi / 180 - start.1 * Real.pi / 180) *
        Real.cos (e.2 * Real.pi / 180))
      (Real.cos (start.2 * Real.pi / 180) * Real.sin (e.2 * Real.pi / 180) -
        Real.sin (start.2 * Real.pi / 180) * Real.cos (e.2 * Real.pi / 180) *
          Real.cos (e.1 * Real.pi / 180 - start.1 * Real.pi / 180)) *
        180 / Real.pi := by
    rw [le_div_iff hπ]
    nlinarith
  linarith

/-! ### C1: Remove in the Modification Resolver (spec-modelled) -/

/-- Modelled from the spec: ASCII lowercasing, the case-folding step of
the normalized place name used by the backend pipeline, whose source is
not part of the checked tree. -/
def asciiToLower (c : Char) : Char :=
  if 'A' ≤ c ∧ c ≤ 'Z' then Char.ofNat (c.toNat + 32) else c

/-- Modelled from the spec: split a character list on spaces. -/
def splitSp : List Char → List (List Char)
  | [] => [[]]
  | c :: rest =>
      match splitSp rest with
      | [] => [[c]]
      | w :: ws => if c = ' ' then [] :: w :: ws else (c :: w) :: ws

/-- Modelled from the spec: join words with single spaces. -/
def joinWords : List (List Char) → List Char
  | [] => []
  | [w] => w
  | w :: v :: ws => w ++ ' ' :: joinWords (v :: ws)

/-- Modelled from the spec: the normalized place name — case-insensitive
and whitespace-collapsed — under which itinerary entries are unique and
selectors match. -/
def normalizeName (s : String) : String :=
  ⟨joinWords ((splitSp (s.data.map asciiToLower)).filter (fun w => w ≠ []))⟩

/-- Modelled from the spec: a selector is an explicit index, a name
match, or a category-plus-ordinal match (Design Notes §9). -/
inductive Selector where
  | byIndex (i : ℕ)
  | byName (name : String)
  | byCategory (cat : String) (ord : ℕ)
  deriving DecidableEq, Repr

/-- Modelled from the spec: deterministic selector resolution over the
current place list — an index must be in range, a name selector takes the
first place whose normalized name matches, a category selector takes the
ordinal-th place of that category (first match in list order, §4.3). -/
def resolveSelector (sel : Selector) (ps : List Place) : Option ℕ :=
  match sel with
  | .byIndex i => if i < ps.length then some i else none
  | .byName n =>
      ps.findIdx? (fun p => normalizeName p.name == normalizeName n)
  | .byCategory c k =>
      ((ps.enum.filter (fun ip => ip.2.category == some c)).get? k).map Prod.fst

/-- Modelled from the spec: the `Remove(selector)` transition of the
Modification Resolver (§4.4) — when the selector resolves, remove exactly
that place and keep the relative order of the rest; when it resolves to
nothing, fail (`ResolutionError::NotFound`), modelled as `none`. -/
def applyRemove (sel : Selector) (ps : List Place) : Option (List Place) :=
  (resolveSelector sel ps).map (fun i => ps.eraseIdx i)

theorem findIdxQ_lt {α : Type} (p : α → Bool) :
    ∀ (l : List α) (i : ℕ), l.findIdx? p = some i → i < l.length
  | [], i => by intro h; simp [List.findIdx?] at h
  | a :: l, i => by
      intro h
      rw [List.findIdx?_cons] at h
      by_cases hp : p a
      · simp [hp] at h
        simp only [List.length_cons]
        omega
      · simp [hp] at h
        obtain ⟨j, hj, rfl⟩ := h
        have := findIdxQ_lt p l j hj
        simp only [List.length_cons]
        omega

theorem resolveSelector_lt (sel : Selector) (ps : List Place) (i : ℕ)
    (h : resolveSelector sel ps = some i) : i < ps.length := by
  match sel with
  | .byIndex j =>
      rw [resolveSelector] at h
      split at h
      · cases h; assumption
      · cases h
  | .byName n =>
      rw [resolveSelector] at h
      exact findIdxQ_lt _ ps i h
  | .byCategory c k =>
      rw [resolveSelector] at h
      obtain ⟨⟨j, p⟩, hget, rfl⟩ := Option.map_eq_some'.mp h
      have hmem := List.get?_mem hget
      have henum := (List.mem_filter.mp hmem).1
      have hps := List.mk_mem_enum_iff_get?.mp henum
      have := List.get?_eq_some.mp hps
      exact this.1

/-- Claim C1 (modelled from the spec): for every itinerary and every
`Remove` whose selector resolves to an existing place, the resolver
returns the itinerary with exactly that one place removed — the result is
literally the original list with position `i` deleted (so every remaining
place is field-for-field the original and relative order is kept), and
the length drops by exactly one. -/
theorem applyRemove_spec (ps : List Place) (sel : Selector) (i : ℕ)
    (h : resolveSelector sel ps = some i) :
    i < ps.length ∧
    applyRemove sel ps = some (ps.take i ++ ps.drop (i + 1)) ∧
    (ps.take i ++ ps.drop (i + 1)).length + 1 = ps.length := by
  have hlt := resolveSelector_lt sel ps i h
  refine ⟨hlt, ?_, ?_⟩
  · rw [applyRemove, h, Option.map_some', List.eraseIdx_eq_take_drop_succ]
  · rw [List.length_append, List.length_take, List.length_drop]
    omega

/-- A concrete three-place itinerary `[A, B, C]` for the removal witness. -/
def placeA : Place := { name := "A" }

/-- Second place of the removal witness. -/
def placeB : Place := { name := "B" }

/-- Third place of the removal witness. -/
def placeC : Place := { name := "C" }

/-- Claim C1 witness: on `[A, B, C]`, the selector `"B"` resolves to
index 1 and removal returns `[A, C]` (take 1 ++ drop 2). -/
theorem applyRemove_spec_witness :
    resolveSelector (Selector.byName "B") [placeA, placeB, placeC] = some 1 ∧
    applyRemove (Selector.byName "B") [placeA, placeB, placeC] =
      some ([placeA, placeB, placeC].take 1 ++ [placeA, placeB, placeC].drop (1 + 1)) ∧
    ([placeA, placeB, placeC].take 1 ++ [placeA, placeB, placeC].drop (1 + 1)).length + 1 =
      [placeA, placeB, placeC].length := by
  have h : resolveSelector (Selector.byName "B") [placeA, placeB, placeC] = some 1 := by
    decide
  exact ⟨h, (applyRemove_spec [placeA, placeB, placeC] (Selector.byName "B") 1 h).2.1,
    (applyRemove_spec [placeA, placeB, placeC] (Selector.byName "B") 1 h).2.2⟩

/-! ### C7: dedup invariant of `generate_itinerary` (spec-modelled) -/

/-- Modelled from the spec: the deduplication pass of the Itinerary
Generator (§4.2), keeping the first-seen candidate for each normalized
name; `seen` is the set of normalized names already kept. -/
def dedupGo (seen : List String) : List Place → List Place
  | [] => []
  | p :: ps =>
      if normalizeName p.name ∈ seen then dedupGo seen ps
      else p :: dedupGo (normalizeName p.name :: seen) ps

/-- Modelled from the spec: deduplicate candidates by normalized name,
preserving first-seen order, before geocoding. -/
def dedupByName (ps : List Place) : List Place :=
  dedupGo [] ps

/-- Modelled from the spec: geocoding one candidate against the
destination as locality context; a miss keeps the place with null
coordinates and a notes annotation (§4.2).  The geocoding service is the
function argument `g`. -/
def geocodePlace (g : String → Option (ℚ × ℚ)) (destination : String)
    (p : Place) : Place :=
  match g (p.name ++ ", " ++ destination) with
  | some q => { p with latitude := some q.1, longitude := some q.2 }
  | none =>
      { p with latitude := none, longitude := none,
               notes := some "location not found" }

/-- Modelled from the spec: `generate_itinerary` — candidate places from
the completion service (the `candidates` argument), deduplicated by
normalized name, then geocoded in order (§4.2); output order is the
deduplicated candidate order, with no re-sorting. -/
def generate_itinerary (candidates : List Place)
    (g : String → Option (ℚ × ℚ)) (destination : String) : List Place :=
  (dedupByName candidates).map (geocodePlace g destination)

theorem geocodePlace_name (g : String → Option (ℚ × ℚ)) (destination : String)
    (p : Place) : (geocodePlace g destination p).name = p.name := by
  rw [geocodePlace]
  split <;> rfl

theorem dedupGo_first :
    ∀ (seen : List String) (cs : List Place) (p : Place), p ∈ dedupGo seen cs →
      normalizeName p.name ∉ seen ∧
      ∃ i, cs.get? i = some p ∧
        ∀ j q, j < i → cs.get? j = some q →
          normalizeName q.name ≠ normalizeName p.name
  | seen, [], p => by intro h; simp [dedupGo] at h
  | seen, c :: rest, p => by
      intro h
      rw [dedupGo] at h
      by_cases hc : normalizeName c.name ∈ seen
      · rw [if_pos hc] at h
        obtain ⟨hns, i, hi, hfirst⟩ := dedupGo_first seen rest p h
        refine ⟨hns, i + 1, hi, ?_⟩
        intro j q hj hq
        match j with
        | 0 =>
            cases hq
            intro heq
            rw [heq] at hc
            exact hns hc
        | Nat.succ j' =>
            exact hfirst j' q (by omega) hq
      · rw [if_neg hc] at h
        rcases List.mem_cons.mp h with rfl | h
        · exact ⟨hc, 0, rfl, by intro j q hj hq; omega⟩
        · obtain ⟨hns, i, hi, hfirst⟩ :=
            dedupGo_first (normalizeName c.name :: seen) rest p h
          have hpc : normalizeName p.name ≠ normalizeName c.name :=
            fun heq => hns (by rw [heq]; exact List.mem_cons_self _ _)
          refine ⟨fun hmem => hns (List.mem_cons_of_mem _ hmem), i + 1, hi, ?_⟩
          intro j q hj hq
          match j with
          | 0 =>
              cases hq
              exact fun heq => hpc heq.symm
          | Nat.succ j' =>
              exact hfirst j' q (by omega) hq

theorem dedupGo_pairwise :
    ∀ (seen : List String) (cs : List Place),
      (dedupGo seen cs).Pairwise
        (fun a b => normalizeName a.name ≠ normalizeName b.name)
  | seen, [] => by simp [dedupGo]
  | seen, c :: rest => by
      rw [dedupGo]
      by_cases hc : normalizeName c.name ∈ seen
      · rw [if_pos hc]
        exact dedupGo_pairwise seen rest
      · rw [if_neg hc]
        refine List.Pairwise.cons ?_ (dedupGo_pairwise _ rest)
        intro p hp
        have hns := (dedupGo_first (normalizeName c.name :: seen) rest p hp).1
        exact fun heq => hns (by rw [← heq]; exact List.mem_cons_self _ _)

theorem dedupGo_sublist :
    ∀ (seen : List String) (cs : List Place), (dedupGo seen cs).Sublist cs
  | seen, [] => by simp [dedupGo]
  | seen, c :: rest => by
      rw [dedupGo]
      by_cases hc : normalizeName c.name ∈ seen
      · rw [if_pos hc]
        exact (dedupGo_sublist seen rest).cons c
      · rw [if_neg hc]
        exact (dedupGo_sublist _ rest).cons₂ c

/-- Claim C7 (modelled from the spec): `generate_itinerary` never returns
two places with the same normalized name; geocoding changes no name, the
output names are exactly the deduplicated candidate names, deduplication
is a sublist of the candidates (relative order preserved), and each kept
place is the first candidate bearing its normalized name. -/
theorem generate_itinerary_dedup (candidates : List Place)
    (g : String → Option (ℚ × ℚ)) (destination : String) :
    (generate_itinerary candidates g destination).Pairwise
      (fun a b => normalizeName a.name ≠ normalizeName b.name) ∧
    (generate_itinerary candidates g destination).map Place.name =
      (dedupByName candidates).map Place.name ∧
    (dedupByName candidates).Sublist candidates ∧
    (∀ p ∈ dedupByName candidates, ∃ i, candidates.get? i = some p ∧
      ∀ j q, j < i → candidates.get? j = some q →
        normalizeName q.name ≠ normalizeName p.name) := by
  refine ⟨?_, ?_, dedupGo_sublist [] candidates, ?_⟩
  · rw [generate_itinerary, List.pairwise_map]
    have := dedupGo_pairwise [] candidates
    apply this.imp_of_mem
    intro a b ha hb hne
    rw [geocodePlace_name, geocodePlace_name]
    exact hne
  · rw [generate_itinerary, List.map_map]
    apply List.map_congr_left
    intro p hp
    exact geocodePlace_name g destination p
  · intro p hp
    exact (dedupGo_first [] candidates p hp).2

/-- A duplicate-named candidate (`"  louvre "` normalizes like
`"Louvre"`) for the dedup witness. -/
def louvreDupPlace : Place := { name := "  louvre " }

/-- Claim C7 witness: with candidates `[Louvre, "  louvre ", Hidden Cafe]`
the first `Louvre` is kept as the first occurrence of its normalized
name. -/
theorem generate_itinerary_dedup_witness :
    ∃ i, [louvrePlace, louvreDupPlace, hiddenCafePlace].get? i = some louvrePlace ∧
      ∀ j q, j < i → [louvrePlace, louvreDupPlace, hiddenCafePlace].get? j = some q →
        normalizeName q.name ≠ normalizeName louvrePlace.name :=
  (generate_itinerary_dedup [louvrePlace, louvreDupPlace, hiddenCafePlace]
    (fun _ => none) "Paris").2.2.2 louvrePlace (by decide)
